import Mathlib

/-
Verification of the two reporting utilities of db-performance-observer:
scripts/format_results.py (single-run Markdown formatter) and
scripts/plot_results.py (multi-scale aggregator and report generator).

The Python code is shallowly embedded: JSON scalars become an inductive
value type, Python dicts become association lists, fallible operations
(indexing, numeric formatting of non-numbers, int() parsing) return
Except String, and file-system interaction is modelled by an explicit
listing of the scanned directory.  JSON numbers are source-level decimal
literals; they are carried exactly as mantissa / 10 ^ exponent pairs of
machine-unbounded integers.  Record field values are modelled as JSON
scalars (the benchmark schema has only scalar fields); nested containers
inside a record are not modelled.
-/

/-! ## Decimal digit primitives -/

/-- The decimal digit character for d % 10. -/
def digitChar10 (d : Nat) : Char :=
  (['0', '1', '2', '3', '4', '5', '6', '7', '8', '9']).getD (d % 10) '0'

/-- Fuel-driven decimal digits of a natural number, most significant first.
Fuel n + 1 always suffices for n. -/
def natReprAux : Nat → Nat → List Char
  | 0, _ => []
  | fuel + 1, n =>
    if n < 10 then [digitChar10 n]
    else natReprAux fuel (n / 10) ++ [digitChar10 n]

/-- Standard decimal rendering of a natural number. -/
def natRepr (n : Nat) : String :=
  String.mk (natReprAux (n + 1) n)

/-- Decimal rendering of an integer with a leading minus sign when negative. -/
def intRepr (n : Int) : String :=
  if n < 0 then "-" ++ natRepr n.natAbs else natRepr n.natAbs

/-- Exactly d decimal digits of n (mod 10 ^ d), zero padded, most
significant first. -/
def natDigitsFixed : Nat → Nat → List Char
  | 0, _ => []
  | d + 1, n => natDigitsFixed d (n / 10) ++ [digitChar10 n]

/-! ## Exact decimal numbers -/

/-- An exact decimal number num / 10 ^ exp: the value of a JSON float
literal such as 500.5 = mk 5005 1. -/
structure Dec : Type where
  num : Int
  exp : Nat
deriving DecidableEq, Repr

/-- Round-half-even integer division (b positive): the rounding Python
applies when formatting a number to a fixed number of decimals. -/
def rheDiv (a b : Int) : Int :=
  let q := a.fdiv b
  let r := a - b * q
  if 2 * r < b then q
  else if b < 2 * r then q + 1
  else if q % 2 = 0 then q else q + 1

/-- Fixed-point rendering of a decimal number with exactly d digits after
the decimal point: the embedding of a Python format spec .df applied to a
numeric value (format_results.py lines 29-32, plot_results.py lines
58-61). -/
def formatFixed (d : Nat) (x : Dec) : String :=
  let n : Int := rheDiv (x.num * (10 : Int) ^ d) ((10 : Int) ^ x.exp)
  let sign : String := if x.num < 0 then "-" else ""
  let m : Nat := n.natAbs
  if d = 0 then sign ++ natRepr (m / 10 ^ d)
  else sign ++ natRepr (m / 10 ^ d) ++ "." ++ String.mk (natDigitsFixed d (m % 10 ^ d))

/-- Strip trailing zeros from the fractional digits of an unsigned
decimal (mantissa, number of fractional digits). -/
def decNormN : Nat → Nat → Nat × Nat
  | m, 0 => (m, 0)
  | m, e + 1 => if m % 10 = 0 then decNormN (m / 10) e else (m, e + 1)

/-- Python str() on a float: minimal terminating decimal form, integral
floats rendered with a trailing .0 as in Python.  Never exercised by the
claims, present only for totality of str(). -/
def floatRepr (x : Dec) : String :=
  let sign : String := if x.num < 0 then "-" else ""
  let p := decNormN x.num.natAbs x.exp
  if p.2 = 0 then sign ++ natRepr p.1 ++ ".0"
  else sign ++ natRepr (p.1 / 10 ^ p.2) ++ "." ++ String.mk (natDigitsFixed p.2 (p.1 % 10 ^ p.2))

/-! ## JSON scalar values and Python-level helpers -/

/-- A JSON scalar value as loaded by json.load.  Integral and floating
numbers are kept distinct, as Python does. -/
inductive JValue : Type where
  | null : JValue
  | jbool (b : Bool) : JValue
  | jint (n : Int) : JValue
  | jfloat (x : Dec) : JValue
  | jstr (s : String) : JValue
deriving DecidableEq, Repr

/-- Python str() on a JSON scalar. -/
def pyStr : JValue → String
  | .null => "None"
  | .jbool b => if b then "True" else "False"
  | .jint n => intRepr n
  | .jfloat x => floatRepr x
  | .jstr s => s

/-- Applying a Python fixed-point format spec .df to a value: succeeds on
numbers (bool counts as a number in Python), raises TypeError or
ValueError on null and strings.  Error message text is abridged. -/
def JValue.fmtFixed (d : Nat) : JValue → Except String String
  | .jint n => .ok (formatFixed d ⟨n, 0⟩)
  | .jfloat x => .ok (formatFixed d x)
  | .jbool b => .ok (formatFixed d ⟨if b then 1 else 0, 0⟩)
  | .null => .error "TypeError: unsupported format string passed to NoneType.__format__"
  | .jstr _ => .error "ValueError: Unknown format code f for object of type str"

/-- First-match association-list lookup: the embedding of a Python dict
lookup (dict keys are unique, so first match is the match). -/
def alookup {κ β : Type} [DecidableEq κ] (k : κ) : List (κ × β) → Option β
  | [] => none
  | (k', v) :: rest => if k' = k then some v else alookup k rest

/-- Python dict.get(k, dflt) on a record. -/
def fget (fields : List (String × JValue)) (k : String) (dflt : JValue) : JValue :=
  (alookup k fields).getD dflt

/-- Python dict insertion d[k] = v: replaces the value in place when the
key exists, appends otherwise (insertion order preserved, as CPython). -/
def dinsert {κ β : Type} [DecidableEq κ] (k : κ) (v : β) : List (κ × β) → List (κ × β)
  | [] => [(k, v)]
  | (k', v') :: rest => if k' = k then (k, v) :: rest else (k', v') :: dinsert k v rest

/-- Python str.join. -/
def pyJoin (sep : String) : List String → String
  | [] => ""
  | [x] => x
  | x :: y :: xs => x ++ sep ++ pyJoin sep (y :: xs)

/-- Python int(s) on a directory name: optional sign followed by one or
more decimal digits; anything else raises ValueError (exotic accepted
forms such as surrounding whitespace or digit-group underscores are not
modelled; error text abridged). -/
def digitsVal (l : List Char) : Nat :=
  l.foldl (fun a c => 10 * a + (c.toNat - 48)) 0

def pyIntError (s : String) : String :=
  "ValueError: invalid literal for int() with base 10: " ++ s

def pyInt (s : String) : Except String Int :=
  match s.data with
  | '-' :: rest =>
    if !rest.isEmpty && rest.all Char.isDigit then .ok (-(digitsVal rest : Int))
    else .error (pyIntError s)
  | '+' :: rest =>
    if !rest.isEmpty && rest.all Char.isDigit then .ok (digitsVal rest)
    else .error (pyIntError s)
  | l =>
    if !l.isEmpty && l.all Char.isDigit then .ok (digitsVal l)
    else .error (pyIntError s)

/-! ## Embedding of scripts/format_results.py -/

/-- An element of a loaded top-level JSON array: either a key/value
mapping (a result record) or a scalar non-mapping value. -/
inductive PyElem : Type where
  | row (fields : List (String × JValue)) : PyElem
  | nonRow (v : JValue) : PyElem
deriving DecidableEq, Repr

/-- A parsed top-level JSON document as returned by json.load. -/
inductive PyDoc : Type where
  | scalarDoc (v : JValue) : PyDoc
  | listDoc (elems : List PyElem) : PyDoc
  | dictDoc (fields : List (String × JValue)) : PyDoc
deriving DecidableEq, Repr

/-- Fixed column order of the single-run table (format_results.py line 20). -/
def tableHeaders : List String :=
  ["scenario", "ops", "throughput_ops", "p50_ms", "p95_ms", "p99_ms"]

/-- Header line of the single-run table (format_results.py line 21). -/
def headerLine : String := "| " ++ pyJoin " | " tableHeaders ++ " |"

/-- Separator line of the single-run table (format_results.py line 21). -/
def sepLine : String :=
  "|" ++ pyJoin "|" (List.replicate tableHeaders.length " --- ") ++ "|"

/-- One body row of the single-run table (format_results.py lines 23-36):
missing fields default via dict.get, numbers are formatted fixed-point,
and a non-mapping element raises AttributeError at the .get call.
Python evaluates the cells in listed order, so the first failing metric
determines the error. -/
def rowLine : PyElem → Except String String
  | .nonRow _ => .error "AttributeError: object has no attribute get"
  | .row fields => do
    let tp ← (fget fields "throughput_ops" (.jint 0)).fmtFixed 2
    let p50 ← (fget fields "p50_ms" (.jint 0)).fmtFixed 3
    let p95 ← (fget fields "p95_ms" (.jint 0)).fmtFixed 3
    let p99 ← (fget fields "p99_ms" (.jint 0)).fmtFixed 3
    .ok ("| " ++ pyJoin " | "
      [pyStr (fget fields "scenario" (.jstr "")),
       pyStr (fget fields "ops" (.jstr "")),
       tp, p50, p95, p99] ++ " |")

/-- Iterating the loaded document, as the for loop of to_markdown does:
a list yields its elements, a dict yields its keys (strings), a string
yields its characters, and other scalars raise TypeError. -/
def iterRows : PyDoc → Except String (List PyElem)
  | .listDoc elems => .ok elems
  | .dictDoc fields => .ok (fields.map (fun kv => PyElem.nonRow (.jstr kv.1)))
  | .scalarDoc (.jstr s) => .ok (s.data.map (fun c => PyElem.nonRow (.jstr (String.mk [c]))))
  | .scalarDoc _ => .error "TypeError: object is not iterable"

/-- to_markdown of format_results.py (lines 19-37): header, separator,
one row per record, joined by newlines with one trailing newline. -/
def to_markdown (doc : PyDoc) : Except String String := do
  let rows ← iterRows doc
  let body ← rows.mapM rowLine
  .ok (pyJoin "\n" (headerLine :: sepLine :: body) ++ "\n")

/-- main of format_results.py (lines 40-53): the input file parse result
comes in as an Except, the previous content of the output file as an
Option; on any failure the error propagates and the output file is left
untouched, on success the rendered table replaces it. -/
def format_main (input : Except String PyDoc) (out0 : Option String) :
    Except String Unit × Option String :=
  match input with
  | .error e => (.error e, out0)
  | .ok doc =>
    match to_markdown doc with
    | .error e => (.error e, out0)
    | .ok md => (.ok (), some md)

/-- The shape the spec calls a valid input: a sequence of key/value
mappings. -/
def isValidSeq : PyDoc → Bool
  | .listDoc elems => elems.all (fun e => match e with | .row _ => true | .nonRow _ => false)
  | _ => false

/-! ## Embedding of scripts/plot_results.py -/

/-- The per-scale reindexed mapping scenario-value to record. -/
abbrev ScnMap := List (JValue × List (String × JValue))

/-- The aggregate: scale name to reindexed scenario map. -/
abbrev AggData := List (String × ScnMap)

/-- Reindexing of one loaded results file (plot_results.py line 34): a
dict comprehension keyed by row["scenario"], last record winning when a
scenario repeats; a non-mapping element raises TypeError at the
subscription, a record without a scenario key raises KeyError, and both
are fatal because the comprehension sits outside the try block. -/
def reindex (doc : PyDoc) : Except String ScnMap := do
  let rows ← iterRows doc
  rows.foldlM (fun acc e =>
    match e with
    | .row fields =>
      match alookup "scenario" fields with
      | some k => .ok (dinsert k fields acc)
      | none => .error "KeyError: scenario"
    | .nonRow _ => .error "TypeError: value is not subscriptable") []

/-- What loading scale-directory/bench.json would yield: the file is
absent, json.load raises, or a document is returned. -/
inductive BenchFile : Type where
  | missing : BenchFile
  | corrupt (msg : String) : BenchFile
  | loaded (doc : PyDoc) : BenchFile
deriving DecidableEq, Repr

/-- One entry of the scanned results/db directory. -/
structure ScaleDir : Type where
  name : String
  isDir : Bool
  bench : BenchFile
deriving DecidableEq, Repr

/-- The warning printed to stderr for a corrupt bench.json
(plot_results.py line 32); rootDb is the results/db path prefix. -/
def warnMsg (rootDb name msg : String) : String :=
  "[WARN] 读取 " ++ rootDb ++ "/" ++ name ++ "/bench.json 失败: " ++ msg

/-- One iteration of the scan loop of collect (plot_results.py lines
23-34): non-directories and directories without bench.json are passed
over silently, a corrupt file appends a warning and is excluded, a loaded
file is reindexed into the aggregate. -/
def collectStep (rootDb : String) (acc : AggData × List String) (e : ScaleDir) :
    Except String (AggData × List String) :=
  if e.isDir = false then .ok acc
  else match e.bench with
    | .missing => .ok acc
    | .corrupt msg => .ok (acc.1, acc.2 ++ [warnMsg rootDb e.name msg])
    | .loaded doc =>
      match reindex doc with
      | .ok m => .ok (dinsert e.name m acc.1, acc.2)
      | .error err => .error err

/-- The scan loop of collect over an already ordered listing. -/
def collectFrom (rootDb : String) (acc : AggData × List String)
    (entries : List ScaleDir) : Except String (AggData × List String) :=
  entries.foldlM (collectStep rootDb) acc

/-- sorted(root.iterdir()) (plot_results.py line 23): the entries in
lexicographic order of their names. -/
def sortByName (entries : List ScaleDir) : List ScaleDir :=
  entries.insertionSort (fun a b => a.name ≤ b.name)

/-- collect of plot_results.py (lines 20-35). -/
def collect (rootDb : String) (entries : List ScaleDir) :
    Except String (AggData × List String) :=
  collectFrom rootDb ([], []) (sortByName entries)

/-- All scenario keys over all loaded scales (plot_results.py lines
44-46): the union of the per-scale key sets, still unsorted. -/
def unionKeys (data : AggData) : List JValue :=
  ((data.map Prod.snd).flatMap (fun m => m.map Prod.fst)).dedup

def JValue.isStrB : JValue → Bool
  | .jstr _ => true
  | _ => false

def JValue.isIntB : JValue → Bool
  | .jint _ => true
  | _ => false

/-- Python sorted() on dict keys (plot_results.py line 47): stable sort,
lexicographic on strings, numeric on integers; comparing two elements of
differing type raises TypeError, and any mixed list of two or more
elements gets some such comparison. -/
def pySortKeys (keys : List JValue) : Except String (List JValue) :=
  if keys.all JValue.isStrB then
    .ok (((keys.filterMap (fun v => match v with | .jstr s => some s | _ => none)).insertionSort
      (fun a b => a ≤ b)).map JValue.jstr)
  else if keys.all JValue.isIntB then
    .ok (((keys.filterMap (fun v => match v with | .jint n => some n | _ => none)).insertionSort
      (fun a b => a ≤ b)).map JValue.jint)
  else if keys.length ≤ 1 then .ok keys
  else .error "TypeError: elements not comparable"

/-- sorted(data.keys(), key=lambda x: int(x)) (plot_results.py line 54):
int() is evaluated on every key first, its ValueError propagating, then a
stable sort by the integer key orders the scale names. -/
def sortScales (keys : List String) : Except String (List String) := do
  let keyed ← keys.mapM (fun s => do
    let n ← pyInt s
    pure ((n, s) : Int × String))
  .ok ((keyed.insertionSort (fun a b => a.1 ≤ b.1)).map Prod.snd)

/-- Header line of each scenario section (plot_results.py line 51). -/
def summaryHeader : String := "| scale | ops | throughput_ops | p50_ms | p95_ms | p99_ms |"

/-- Separator line of each scenario section (plot_results.py line 52). -/
def summarySep : String := "| --- | --- | --- | --- | --- | --- |"

/-- One row of a scenario section (plot_results.py lines 56-62): every
cell comes from dict.get with defaults on the row dict; cells evaluate in
listed order, so the first failing metric determines the error. -/
def renderSummaryRow (scale : String) (fields : List (String × JValue)) :
    Except String String := do
  let tp ← (fget fields "throughput_ops" (.jint 0)).fmtFixed 2
  let p50 ← (fget fields "p50_ms" (.jint 0)).fmtFixed 3
  let p95 ← (fget fields "p95_ms" (.jint 0)).fmtFixed 3
  let p99 ← (fget fields "p99_ms" (.jint 0)).fmtFixed 3
  .ok ("| " ++ scale ++ " | " ++ pyStr (fget fields "ops" (.jstr "")) ++ " | "
    ++ tp ++ " | " ++ p50 ++ " | " ++ p95 ++ " | " ++ p99 ++ " |")

/-- The row of one scale in one scenario section (plot_results.py line
55): data[scale] is a dict lookup that cannot miss for keys of data, and
the scenario row defaults to the empty dict via .get(scenario, {}). -/
def summaryRow (data : AggData) (scenario : JValue) (scale : String) :
    Except String String :=
  match alookup scale data with
  | none => .error ("KeyError: " ++ scale)
  | some m => renderSummaryRow scale ((alookup scenario m).getD [])

/-- One scenario section (plot_results.py lines 49-63): heading, table
header, separator, one row per scale in numeric scale order, and the
blank line appended after the section. -/
def sectionLines (data : AggData) (scenario : JValue) : Except String (List String) := do
  let scales ← sortScales (data.map Prod.fst)
  let rows ← scales.mapM (summaryRow data scenario)
  .ok (("## " ++ pyStr scenario) :: summaryHeader :: summarySep :: rows ++ [""])

/-- write_markdown of plot_results.py (lines 42-64) as the flat list of
report lines, one section per sorted scenario; the Except carries the
fatal errors (scale-name int() failure, scenario comparison failure,
formatting type errors). -/
def write_markdown_lines (data : AggData) : Except String (List String) := do
  let scenarios ← pySortKeys (unionKeys data)
  let sections ← scenarios.mapM (sectionLines data)
  .ok sections.flatten

/-- The text written to summary.md: the report lines joined by newline,
with no extra trailing newline (plot_results.py line 63). -/
def write_markdown_text (data : AggData) : Except String String := do
  let lines ← write_markdown_lines data
  .ok (pyJoin "\n" lines)

/-- The y-value contributed by one scale to one chart (plot_results.py
lines 85-87 and 103-105): row = data[scale].get(scenario), then
row[metric] if row else 0.  An absent or empty (falsy) row contributes 0;
a present non-empty row without the metric key raises KeyError. -/
def chartCell (m : ScnMap) (scenario : JValue) (metric : String) : Except String JValue :=
  match alookup scenario m with
  | none => .ok (.jint 0)
  | some [] => .ok (.jint 0)
  | some fields =>
    match alookup metric fields with
    | some v => .ok v
    | none => .error ("KeyError: " ++ metric)

/-- All y-values of one chart, scales in numeric order (plot_results.py
lines 79-87). -/
def chartVals (data : AggData) (scenario : JValue) (metric : String) :
    Except String (List JValue) := do
  let scales ← sortScales (data.map Prod.fst)
  scales.mapM (fun scale =>
    match alookup scale data with
    | none => .error ("KeyError: " ++ scale)
    | some m => chartCell m scenario metric)

/-- Observable outcome of an aggregator run that got past collect: the
diagnostic warnings printed, the summary.md content if the write was
reached, and either a clean exit code or the propagated exception.  A
summary written before a later raise in the chart stage stays recorded,
matching the on-disk state when the process dies. -/
structure RunOutcome : Type where
  warnings : List String
  summary : Option String
  exit : Except String Nat
deriving Repr

/-- The warning printed when no bench.json was found (plot_results.py
line 130). -/
def noDataWarning (resultsDir db : String) : String :=
  "[WARN] 未找到任何 bench.json (路径 " ++ resultsDir ++ "/" ++ db ++ ")"

/-- The warning printed when matplotlib cannot be imported
(plot_results.py line 71); msg is the import exception text. -/
def mplImportWarning (msg : String) : String :=
  "[WARN] 无法导入 matplotlib，跳过绘图: " ++ msg

/-- plot of plot_results.py (lines 67-115) up to its observable warnings
and raises: the matplotlib probe (mplErr = some msg means importing
matplotlib raises msg), the scenario union and sort (lines 74-77), the
unconditional numeric scale sort at line 79, then the per-scenario metric
extractions of the throughput charts (line 85) and the p99 charts (line
103).  Chart file contents and the per-chart stdout prints are not
modelled; chartVals recomputes the scale sort internally, which agrees
with the sort already validated at line 79. -/
def plot_run (data : AggData) (mplErr : Option String) : Except String (List String) :=
  match mplErr with
  | some msg => .ok [mplImportWarning msg]
  | none => do
    let scenarios ← pySortKeys (unionKeys data)
    let _ ← sortScales (data.map Prod.fst)
    let _ ← scenarios.mapM (fun scn => chartVals data scn "throughput_ops")
    let _ ← scenarios.mapM (fun scn => chartVals data scn "p99_ms")
    .ok []

/-- The tail of main after a successful collect (plot_results.py lines
129-135): the warn-and-exit-0 empty path, else the summary write followed
by plot; a raise while building the summary leaves no file, a raise
inside plot leaves the already written summary on disk. -/
def afterCollect (resultsDir db : String) (mplErr : Option String)
    (c : AggData × List String) : RunOutcome :=
  if c.1.isEmpty then ⟨c.2 ++ [noDataWarning resultsDir db], none, .ok 0⟩
  else
    match write_markdown_text c.1 with
    | .error e => ⟨c.2, none, .error e⟩
    | .ok text =>
      match plot_run c.1 mplErr with
      | .error e => ⟨c.2, some text, .error e⟩
      | .ok ws => ⟨c.2 ++ ws, some text, .ok 0⟩

/-- main of plot_results.py (lines 118-135): collect, then the empty-data
exit, the summary write and the chart stage.  The outer error is a raise
inside collect itself (before any output decision); warnings printed
before such a raise are not tracked by it. -/
def plot_results_main (resultsDir db : String) (mplErr : Option String)
    (entries : List ScaleDir) : Except String RunOutcome := do
  let c ← collect (resultsDir ++ "/" ++ db) entries
  .ok (afterCollect resultsDir db mplErr c)

/-! ## Spec-side definitions (from the wording of the specification) -/

/-- The row the spec prescribes for a scale missing a scenario: empty ops
cell and zero-valued formatted metrics. -/
def missingRowSpec (scale : String) : String :=
  "| " ++ scale ++ " |  | 0.00 | 0.000 | 0.000 | 0.000 |"

/-- The display defaults the spec prescribes for each field of a record. -/
def defaultFields : List (String × JValue) :=
  [("scenario", .jstr ""), ("ops", .jstr ""), ("throughput_ops", .jint 0),
   ("p50_ms", .jint 0), ("p95_ms", .jint 0), ("p99_ms", .jint 0)]

/-- A present metric value that the formatter can render. -/
def numericOkB : Option JValue → Bool
  | none => true
  | some (.jint _) => true
  | some (.jfloat _) => true
  | some (.jbool _) => true
  | _ => false

/-- A well-formed result record for the single-run formatter: a mapping
whose displayed string cells contain no newline and whose metric fields,
when present, are numbers. -/
def wellFormedRow : PyElem → Bool
  | .nonRow _ => false
  | .row fields =>
    (pyStr (fget fields "scenario" (.jstr ""))).data.all (fun c => c != '\n') &&
    (pyStr (fget fields "ops" (.jstr ""))).data.all (fun c => c != '\n') &&
    numericOkB (alookup "throughput_ops" fields) &&
    numericOkB (alookup "p50_ms" fields) &&
    numericOkB (alookup "p95_ms" fields) &&
    numericOkB (alookup "p99_ms" fields)

/-! ## Concrete inputs and decidable helpers used by the claims -/

def sampleRows : List PyElem :=
  [PyElem.row [("scenario", JValue.jstr "insert"), ("ops", JValue.jint 1000),
      ("throughput_ops", JValue.jfloat ⟨5005, 1⟩)],
    PyElem.row [("scenario", JValue.jstr "scan"), ("ops", JValue.jint 50)]]

def BenchFile.isLoadedB : BenchFile → Bool
  | .loaded _ => true
  | _ => false

def Except.isOkB {α : Type} : Except String α → Bool
  | .ok _ => true
  | .error _ => false

def c5data : AggData := [("abc", [(JValue.jstr "a", [("scenario", JValue.jstr "a")])])]

def c5entries : List ScaleDir := [⟨"abc", true, .loaded (.listDoc [])⟩]

instance : IsTotal (Int × String) (fun a b : Int × String => a.1 ≤ b.1) :=
  ⟨fun a b => le_total a.1 b.1⟩

instance : IsTrans (Int × String) (fun a b : Int × String => a.1 ≤ b.1) :=
  ⟨fun _ _ _ h1 h2 => le_trans h1 h2⟩

def c9m1 : ScnMap := [(JValue.jstr "a", [("scenario", JValue.jstr "a"), ("ops", JValue.jint 1)])]

def c9m2 : ScnMap := [(JValue.jstr "a", [("scenario", JValue.jstr "a"), ("ops", JValue.jint 2)])]

def c9d1 : AggData := [("100", c9m1), ("200", c9m2)]

def c9d2 : AggData := [("200", c9m2), ("100", c9m1)]

def c1data : AggData :=
  [("10", [(JValue.jstr "b", [("scenario", JValue.jstr "b"), ("ops", JValue.jint 5),
      ("throughput_ops", JValue.jfloat ⟨15, 1⟩)])]),
   ("2", [(JValue.jstr "a", [("scenario", JValue.jstr "a"), ("ops", JValue.jint 3)])])]

/-! ## General helper lemmas -/

theorem mapM_ok_of_forall {α β : Type} (f : α → Except String β) (g : α → β) :
    ∀ l : List α, (∀ x ∈ l, f x = .ok (g x)) → l.mapM f = .ok (l.map g) := by
  intro l
  induction l with
  | nil => intro _; rfl
  | cons a t ih =>
    intro h
    rw [List.mapM_cons, h a (by simp), ih (fun x hx => h x (by simp [hx]))]
    rfl

theorem mapM_error_of_exists {α β : Type} (f : α → Except String β) :
    ∀ l : List α, (∃ x ∈ l, ∃ e, f x = .error e) → ∃ e, l.mapM f = .error e := by
  intro l
  induction l with
  | nil => rintro ⟨x, hx, _⟩; simp at hx
  | cons a t ih =>
    rintro ⟨x, hx, e, he⟩
    rw [List.mapM_cons]
    cases hfa : f a with
    | error e' => exact ⟨e', rfl⟩
    | ok b =>
      rcases List.mem_cons.mp hx with rfl | hxt
      · rw [hfa] at he; cases he
      · obtain ⟨e'', he''⟩ := ih ⟨x, hxt, e, he⟩
        exact ⟨e'', by rw [he'']; rfl⟩

theorem mapM_mem_error {α β : Type} (f : α → Except String β) {x : α} {e : String} :
    ∀ l : List α, x ∈ l → f x = .error e → (∀ y ∈ l, ∀ e', f y = .error e' → e' = e) →
    l.mapM f = .error e := by
  intro l
  induction l with
  | nil => intro hx; simp at hx
  | cons a t ih =>
    intro hx hfx hall
    rw [List.mapM_cons]
    cases hfa : f a with
    | error e' =>
      rw [hall a (by simp) e' hfa]
      rfl
    | ok b =>
      rcases List.mem_cons.mp hx with rfl | hxt
      · rw [hfa] at hfx; cases hfx
      · rw [ih hxt hfx (fun y hy => hall y (by simp [hy]))]
        rfl

theorem alookup_mem {κ β : Type} [DecidableEq κ] {k : κ} {v : β} :
    ∀ {l : List (κ × β)}, alookup k l = some v → (k, v) ∈ l := by
  intro l
  induction l with
  | nil => intro h; cases h
  | cons p t ih =>
    intro h
    rw [alookup] at h
    by_cases hk : p.1 = k
    · obtain ⟨k', v'⟩ := p
      simp only at hk
      subst hk
      simp at h
      simp [h]
    · obtain ⟨k', v'⟩ := p
      simp only at hk
      simp [hk] at h
      exact List.mem_cons_of_mem _ (ih h)

theorem alookup_eq_none_iff {κ β : Type} [DecidableEq κ] (k : κ) :
    ∀ (l : List (κ × β)), alookup k l = none ↔ k ∉ l.map Prod.fst := by
  intro l
  induction l with
  | nil => simp [alookup]
  | cons p t ih =>
    obtain ⟨k', v'⟩ := p
    by_cases hk : k' = k
    · subst hk; simp [alookup]
    · simp [alookup, hk, ih, Ne.symm hk]

theorem alookup_of_mem_nodup {κ β : Type} [DecidableEq κ] {k : κ} {v : β} :
    ∀ {l : List (κ × β)}, (k, v) ∈ l → (l.map Prod.fst).Nodup → alookup k l = some v := by
  intro l
  induction l with
  | nil => intro h; cases h
  | cons p t ih =>
    intro hm hnd
    obtain ⟨k', v'⟩ := p
    rw [List.map_cons, List.nodup_cons] at hnd
    rcases List.mem_cons.mp hm with heq | hmt
    · cases heq
      simp [alookup]
    · have hk : k' ≠ k := by
        intro h
        subst h
        exact hnd.1 (List.mem_map.mpr ⟨(k', v), hmt, rfl⟩)
      simp [alookup, hk, ih hmt hnd.2]

theorem alookup_perm {κ β : Type} [DecidableEq κ] {l₁ l₂ : List (κ × β)}
    (p : l₁.Perm l₂) (hnd : (l₁.map Prod.fst).Nodup) (k : κ) :
    alookup k l₁ = alookup k l₂ := by
  have hnd₂ : (l₂.map Prod.fst).Nodup := ((p.map Prod.fst).nodup_iff).mp hnd
  cases h : alookup k l₁ with
  | some v => rw [alookup_of_mem_nodup (p.mem_iff.mp (alookup_mem h)) hnd₂]
  | none =>
    rw [(alookup_eq_none_iff k l₂).mpr]
    intro hm
    exact ((alookup_eq_none_iff k l₁).mp h) (((p.map Prod.fst).mem_iff).mpr hm)

theorem alookup_append {κ β : Type} [DecidableEq κ] (k : κ) :
    ∀ (l₁ l₂ : List (κ × β)), alookup k (l₁ ++ l₂) =
      match alookup k l₁ with
      | some v => some v
      | none => alookup k l₂ := by
  intro l₁ l₂
  induction l₁ with
  | nil => simp [alookup]
  | cons p t ih =>
    obtain ⟨k', v'⟩ := p
    by_cases hk : k' = k
    · subst hk; simp [alookup]
    · simp [alookup, hk, ih]

theorem perm_pairwise_eq {α : Type} {r : α → α → Prop} :
    ∀ {l₁ l₂ : List α}, l₁.Perm l₂ → l₁.Pairwise r → l₂.Pairwise r →
      (∀ a ∈ l₁, ∀ b ∈ l₁, r a b → r b a → a = b) → l₁ = l₂ := by
  intro l₁
  induction l₁ with
  | nil => intro l₂ p _ _ _; exact p.nil_eq
  | cons a t ih =>
    intro l₂ p h₁ h₂ hanti
    cases l₂ with
    | nil => exact absurd p.symm.nil_eq (by simp)
    | cons b t₂ =>
      have hab : a = b := by
        have hbmem : b ∈ a :: t := p.mem_iff.mpr (by simp)
        rcases List.mem_cons.mp hbmem with heq | hbt
        · exact heq.symm
        · have hamem : a ∈ b :: t₂ := p.mem_iff.mp (by simp)
          rcases List.mem_cons.mp hamem with heq | hat₂
          · exact heq
          · have hrab : r a b := (List.pairwise_cons.mp h₁).1 b hbt
            have hrba : r b a := (List.pairwise_cons.mp h₂).1 a hat₂
            exact hanti a (by simp) b (by simp [hbt]) hrab hrba
      subst hab
      have ht : t = t₂ :=
        ih p.cons_inv (List.pairwise_cons.mp h₁).2 (List.pairwise_cons.mp h₂).2
          (fun x hx y hy => hanti x (by simp [hx]) y (by simp [hy]))
      rw [ht]

theorem digitChar10_isDigit (d : Nat) : (digitChar10 d).isDigit = true := by
  have h : d % 10 < 10 := Nat.mod_lt _ (by omega)
  unfold digitChar10
  interval_cases h' : d % 10 <;> decide

theorem isDigit_ne_nl {c : Char} (h : c.isDigit = true) : c ≠ '\n' := by
  intro he
  rw [he] at h
  exact absurd h (by decide)

theorem isDigit_ne_dot {c : Char} (h : c.isDigit = true) : c ≠ '.' := by
  intro he
  rw [he] at h
  exact absurd h (by decide)

theorem natReprAux_digits : ∀ (fuel n : Nat), ∀ c ∈ natReprAux fuel n, c.isDigit = true := by
  intro fuel
  induction fuel with
  | zero => intro n c hc; cases hc
  | succ fuel ih =>
    intro n c hc
    rw [natReprAux] at hc
    by_cases h : n < 10
    · simp [h] at hc
      rw [hc]
      exact digitChar10_isDigit n
    · simp [h] at hc
      rcases hc with hc | hc
      · exact ih _ c hc
      · rw [hc]; exact digitChar10_isDigit n

theorem natDigitsFixed_digits : ∀ (d n : Nat), ∀ c ∈ natDigitsFixed d n, c.isDigit = true := by
  intro d
  induction d with
  | zero => intro n c hc; cases hc
  | succ d ih =>
    intro n c hc
    rw [natDigitsFixed] at hc
    rcases List.mem_append.mp hc with hc | hc
    · exact ih _ c hc
    · simp at hc
      rw [hc]
      exact digitChar10_isDigit n

theorem natRepr_digits (n : Nat) : ∀ c ∈ (natRepr n).data, c.isDigit = true :=
  natReprAux_digits (n + 1) n

theorem count_pyJoin (c : Char) (sep : String) :
    ∀ ls : List String, (pyJoin sep ls).data.count c =
      (ls.map (fun s => s.data.count c)).sum + (ls.length - 1) * sep.data.count c := by
  intro ls
  induction ls with
  | nil => simp [pyJoin]
  | cons x t ih =>
    cases t with
    | nil => simp [pyJoin]
    | cons y t' =>
      rw [pyJoin]
      rw [String.data_append, String.data_append, List.count_append, List.count_append, ih]
      simp only [List.map_cons, List.sum_cons, List.length_cons, Nat.add_sub_cancel]
      rw [add_one_mul]
      generalize List.count c sep.data = cs
      generalize t'.length * cs = q
      omega

theorem rheDiv_one (a : Int) : rheDiv a 1 = a := by
  simp [rheDiv, Int.fdiv_one]

theorem natDigitsFixed_zero (d : Nat) : natDigitsFixed d 0 = List.replicate d '0' := by
  induction d with
  | zero => rfl
  | succ d ih =>
    rw [natDigitsFixed, Nat.zero_div, ih, List.replicate_succ']
    rfl

theorem formatFixed_nat (d n : Nat) (hd : d ≠ 0) :
    formatFixed d ⟨(n : Int), 0⟩ = natRepr n ++ "." ++ String.mk (List.replicate d '0') := by
  have h1 : ((n : Int) * (10 : Int) ^ d).natAbs = n * 10 ^ d := by
    rw [Int.natAbs_mul, Int.natAbs_pow]
    rfl
  have hpow : 0 < 10 ^ d := Nat.pos_pow_of_pos d (by omega)
  have hneg : ¬ ((n : Int) < 0) := Int.not_lt.mpr (Int.natCast_nonneg n)
  simp only [formatFixed, pow_zero, rheDiv_one, h1, hd, if_false, if_neg hneg]
  rw [Nat.mul_div_cancel _ hpow, Nat.mul_mod_left, natDigitsFixed_zero]
  have he : ("" : String) ++ natRepr n = natRepr n := by
    apply congrArg String.mk
    exact List.nil_append _
  rw [he]

/-! ## Claims -/

/-- C4: numeric formatting in the single-run formatter is exact
fixed-point — throughput rendered to 2 decimals and each latency to 3,
zero padded even for integer-valued inputs (1234.5 renders as 1234.50, 2
as 2.000), and the example record renders to exactly the specified row. -/
theorem claim_C4 :
    to_markdown (.listDoc [.row [("scenario", .jstr "insert"), ("ops", .jint 1000),
        ("throughput_ops", .jfloat ⟨5005, 1⟩), ("p50_ms", .jfloat ⟨12, 1⟩),
        ("p95_ms", .jfloat ⟨34, 1⟩), ("p99_ms", .jfloat ⟨56, 1⟩)]]) =
      .ok ("| scenario | ops | throughput_ops | p50_ms | p95_ms | p99_ms |\n" ++
        "| --- | --- | --- | --- | --- | --- |\n" ++
        "| insert | 1000 | 500.50 | 1.200 | 3.400 | 5.600 |\n") ∧
    formatFixed 2 ⟨12345, 1⟩ = "1234.50" ∧
    formatFixed 3 ⟨2, 0⟩ = "2.000" ∧
    (∀ n : Nat, (JValue.jint (n : Int)).fmtFixed 2 = .ok (natRepr n ++ ".00") ∧
      (JValue.jint (n : Int)).fmtFixed 3 = .ok (natRepr n ++ ".000")) := by
  refine ⟨by rfl, by rfl, by rfl, fun n => ⟨?_, ?_⟩⟩
  · show Except.ok (formatFixed 2 ⟨(n : Int), 0⟩) = _
    rw [formatFixed_nat 2 n (by omega), String.append_assoc]
    rfl
  · show Except.ok (formatFixed 3 ⟨(n : Int), 0⟩) = _
    rw [formatFixed_nat 3 n (by omega), String.append_assoc]
    rfl

/-- C10: in the single-run formatter, default-to-zero applies only to
absent keys — a record with throughput_ops present but bound to null
makes formatting fail with a TypeError instead of rendering a zero or the
value, while the same record with the key absent renders a 0.00 cell. -/
theorem claim_C10 :
    to_markdown (.listDoc [.row [("scenario", .jstr "insert"), ("ops", .jint 1000),
        ("throughput_ops", .null)]]) =
      .error "TypeError: unsupported format string passed to NoneType.__format__" ∧
    to_markdown (.listDoc [.row [("scenario", .jstr "insert"), ("ops", .jint 1000)]]) =
      .ok ("| scenario | ops | throughput_ops | p50_ms | p95_ms | p99_ms |\n" ++
        "| --- | --- | --- | --- | --- | --- |\n" ++
        "| insert | 1000 | 0.00 | 0.000 | 0.000 | 0.000 |\n") := by
  exact ⟨rfl, rfl⟩

/-- C3 counterexample: defaulting does not extend to the aggregator
internals — reindexing a record with no scenario key raises KeyError
instead of keying it by the empty string, and chart-value extraction
raises KeyError for a present row missing the metric instead of
substituting 0. -/
theorem claim_C3_counterexample :
    reindex (.listDoc [.row [("ops", .jint 1000), ("throughput_ops", .jfloat ⟨5005, 1⟩)]]) =
      .error "KeyError: scenario" ∧
    chartCell [(.jstr "insert", [("scenario", .jstr "insert"), ("ops", .jint 1000)])]
      (.jstr "insert") "throughput_ops" = .error "KeyError: throughput_ops" := by
  exact ⟨rfl, rfl⟩

/-- C5 counterexample: a loaded scale whose identifier is not convertible
to an integer is not always fatal — when the record list is empty (zero
scenarios) and matplotlib is unavailable, neither numeric sort runs, and
the aggregator exits 0 with an empty summary and only the import warning;
with matplotlib available the same input does die with the propagated
ValueError from the chart-stage sort, after the summary was written. -/
theorem claim_C5_counterexample :
    pyInt "abc" = .error (pyIntError "abc") ∧
    plot_results_main "results" "mysql" (some "No module named matplotlib") c5entries =
      .ok ⟨[mplImportWarning "No module named matplotlib"], some "", .ok 0⟩ ∧
    plot_results_main "results" "mysql" none c5entries =
      .ok ⟨[], some "", .error (pyIntError "abc")⟩ := by
  exact ⟨rfl, rfl, rfl⟩

/-- C7 counterexample: an input that is not a sequence of key/value
mappings does not always fail — an empty mapping iterates to nothing, so
the formatter succeeds and writes a header-only table. -/
theorem claim_C7_counterexample :
    isValidSeq (.dictDoc []) = false ∧
    format_main (.ok (.dictDoc [])) none =
      (.ok (), some ("| scenario | ops | throughput_ops | p50_ms | p95_ms | p99_ms |\n" ++
        "| --- | --- | --- | --- | --- | --- |\n")) := by
  exact ⟨rfl, rfl⟩

/-- C9 counterexample: two aggregates holding the same set of (scale,
records) entries in different orders generate different reports when two
scale names (here 1 and 01) share the same integer value, because the
numeric sort is stable and keeps insertion order among equal keys. -/
theorem claim_C9_counterexample :
    [("1", [((JValue.jstr "a"), [("scenario", JValue.jstr "a"), ("ops", JValue.jint 1)])]),
        ("01", [((JValue.jstr "a"), [("scenario", JValue.jstr "a"), ("ops", JValue.jint 2)])])].Perm
      [("01", [((JValue.jstr "a"), [("scenario", JValue.jstr "a"), ("ops", JValue.jint 2)])]),
        ("1", [((JValue.jstr "a"), [("scenario", JValue.jstr "a"), ("ops", JValue.jint 1)])])] ∧
    write_markdown_text
        [("1", [((JValue.jstr "a"), [("scenario", JValue.jstr "a"), ("ops", JValue.jint 1)])]),
         ("01", [((JValue.jstr "a"), [("scenario", JValue.jstr "a"), ("ops", JValue.jint 2)])])] =
      .ok ("## a\n| scale | ops | throughput_ops | p50_ms | p95_ms | p99_ms |\n" ++
        "| --- | --- | --- | --- | --- | --- |\n" ++
        "| 1 | 1 | 0.00 | 0.000 | 0.000 | 0.000 |\n" ++
        "| 01 | 2 | 0.00 | 0.000 | 0.000 | 0.000 |\n") ∧
    write_markdown_text
        [("01", [((JValue.jstr "a"), [("scenario", JValue.jstr "a"), ("ops", JValue.jint 2)])]),
         ("1", [((JValue.jstr "a"), [("scenario", JValue.jstr "a"), ("ops", JValue.jint 1)])])] =
      .ok ("## a\n| scale | ops | throughput_ops | p50_ms | p95_ms | p99_ms |\n" ++
        "| --- | --- | --- | --- | --- | --- |\n" ++
        "| 01 | 2 | 0.00 | 0.000 | 0.000 | 0.000 |\n" ++
        "| 1 | 1 | 0.00 | 0.000 | 0.000 | 0.000 |\n") ∧
    ("| 1 | 1 | 0.00 | 0.000 | 0.000 | 0.000 |" : String) ≠
      ("| 01 | 2 | 0.00 | 0.000 | 0.000 | 0.000 |" : String) := by
  exact ⟨by decide, rfl, rfl, by decide⟩

theorem except_bind_ok {α β : Type} (a : α) (f : α → Except String β) :
    (Except.ok a >>= f) = f a := rfl

theorem except_bind_err {α β : Type} (e : String) (f : α → Except String β) :
    ((Except.error e : Except String α) >>= f) = .error e := rfl

theorem count_nl_append (a b : String) :
    (a ++ b).data.count '\n' = a.data.count '\n' + b.data.count '\n' := by
  rw [String.data_append, List.count_append]

theorem count_nl_natRepr (n : Nat) : (natRepr n).data.count '\n' = 0 :=
  List.count_eq_zero.mpr (fun hm => absurd (natRepr_digits n _ hm) (by decide))

theorem count_nl_natDigitsFixed (d n : Nat) :
    (natDigitsFixed d n).count '\n' = 0 :=
  List.count_eq_zero.mpr (fun hm => absurd (natDigitsFixed_digits d n _ hm) (by decide))

theorem count_nl_formatFixed (d : Nat) (x : Dec) :
    (formatFixed d x).data.count '\n' = 0 := by
  unfold formatFixed
  by_cases hd : d = 0 <;> by_cases hs : x.num < 0 <;>
    simp [hd, hs, count_nl_append, count_nl_natRepr, count_nl_natDigitsFixed]

theorem count_zero_of_all_ne {l : List Char} {c : Char}
    (h : l.all (fun a => a != c) = true) : l.count c = 0 :=
  List.count_eq_zero.mpr (fun hm => by
    have := List.all_eq_true.mp h c hm
    simp at this)

/-- A metric value passing numericOkB formats successfully into a
fixed-point string. -/
theorem fmtFixed_numericOkB {o : Option JValue} (d : Nat) (h : numericOkB o = true) :
    ∃ x : Dec, (o.getD (JValue.jint 0)).fmtFixed d = .ok (formatFixed d x) := by
  match o with
  | none => exact ⟨⟨0, 0⟩, rfl⟩
  | some (.jint n) => exact ⟨⟨n, 0⟩, rfl⟩
  | some (.jfloat x) => exact ⟨x, rfl⟩
  | some (.jbool b) => exact ⟨⟨if b then 1 else 0, 0⟩, rfl⟩
  | some .null => exact absurd h (by simp [numericOkB])
  | some (.jstr s) => exact absurd h (by simp [numericOkB])

/-- A well-formed record renders to a single newline-free table row. -/
theorem rowLine_wf : ∀ {r : PyElem}, wellFormedRow r = true →
    ∃ s, rowLine r = .ok s ∧ s.data.count '\n' = 0 := by
  intro r h
  match r with
  | .nonRow v => exact absurd h (by simp [wellFormedRow])
  | .row fields =>
    rw [wellFormedRow] at h
    simp only [Bool.and_eq_true] at h
    obtain ⟨⟨⟨⟨⟨hscn, hops⟩, htp⟩, h50⟩, h95⟩, h99⟩ := h
    obtain ⟨x1, hx1⟩ := fmtFixed_numericOkB 2 htp
    obtain ⟨x2, hx2⟩ := fmtFixed_numericOkB 3 h50
    obtain ⟨x3, hx3⟩ := fmtFixed_numericOkB 3 h95
    obtain ⟨x4, hx4⟩ := fmtFixed_numericOkB 3 h99
    have e1 : (fget fields "throughput_ops" (.jint 0)).fmtFixed 2 = .ok (formatFixed 2 x1) := hx1
    have e2 : (fget fields "p50_ms" (.jint 0)).fmtFixed 3 = .ok (formatFixed 3 x2) := hx2
    have e3 : (fget fields "p95_ms" (.jint 0)).fmtFixed 3 = .ok (formatFixed 3 x3) := hx3
    have e4 : (fget fields "p99_ms" (.jint 0)).fmtFixed 3 = .ok (formatFixed 3 x4) := hx4
    refine ⟨"| " ++ pyJoin " | "
      [pyStr (fget fields "scenario" (.jstr "")), pyStr (fget fields "ops" (.jstr "")),
       formatFixed 2 x1, formatFixed 3 x2, formatFixed 3 x3, formatFixed 3 x4] ++ " |",
      ?_, ?_⟩
    · rw [rowLine, e1, except_bind_ok, e2, except_bind_ok, e3, except_bind_ok,
        e4, except_bind_ok]
    · rw [count_nl_append, count_nl_append, count_pyJoin]
      simp only [List.map_cons, List.map_nil, List.sum_cons, List.sum_nil, List.length_cons,
        List.length_nil]
      rw [count_zero_of_all_ne hscn, count_zero_of_all_ne hops,
        count_nl_formatFixed, count_nl_formatFixed, count_nl_formatFixed, count_nl_formatFixed]
      decide

/-- C2: for every well-formed input sequence of N records the single-run
formatter succeeds, its output is header, separator, then one
newline-free row per record in input order, and the output string
contains exactly N + 2 newlines — i.e. N + 2 lines — ending with a
trailing newline. -/
theorem claim_C2 (rows : List PyElem) (h : ∀ r ∈ rows, wellFormedRow r = true) :
    ∃ body : List String,
      rows.mapM rowLine = .ok body ∧
      body.length = rows.length ∧
      (∀ i (hi : i < rows.length) (hb : i < body.length),
        Except.ok (body.get ⟨i, hb⟩) = rowLine (rows.get ⟨i, hi⟩)) ∧
      (∀ l ∈ body, l.data.count '\n' = 0) ∧
      to_markdown (.listDoc rows) = .ok (pyJoin "\n" (headerLine :: sepLine :: body) ++ "\n") ∧
      (pyJoin "\n" (headerLine :: sepLine :: body) ++ "\n").data.count '\n' = rows.length + 2 ∧
      ∃ t, pyJoin "\n" (headerLine :: sepLine :: body) ++ "\n" = t ++ "\n" := by
  have hall : ∀ r ∈ rows, rowLine r = .ok ((rowLine r).toOption.getD "") := by
    intro r hr
    obtain ⟨s, hs, _⟩ := rowLine_wf (h r hr)
    rw [hs]
    rfl
  have hcnt : ∀ r ∈ rows, ((rowLine r).toOption.getD "").data.count '\n' = 0 := by
    intro r hr
    obtain ⟨s, hs, hc⟩ := rowLine_wf (h r hr)
    rw [hs]
    exact hc
  have hmap := mapM_ok_of_forall rowLine (fun r => (rowLine r).toOption.getD "") rows hall
  have hbody : ∀ l ∈ rows.map (fun r => (rowLine r).toOption.getD ""), l.data.count '\n' = 0 := by
    intro l hl
    obtain ⟨r, hr, rfl⟩ := List.mem_map.mp hl
    exact hcnt r hr
  refine ⟨rows.map (fun r => (rowLine r).toOption.getD ""), hmap, by simp, ?_, hbody, ?_, ?_,
    ⟨_, rfl⟩⟩
  · intro i hi hb
    rw [List.get_eq_getElem, List.get_eq_getElem, List.getElem_map]
    exact (hall _ (List.getElem_mem hi)).symm
  · show (iterRows (.listDoc rows) >>= fun rs =>
      rs.mapM rowLine >>= fun body => .ok (pyJoin "\n" (headerLine :: sepLine :: body) ++ "\n")) = _
    rw [iterRows, except_bind_ok, hmap, except_bind_ok]
  · rw [count_nl_append, count_pyJoin]
    simp only [List.map_cons, List.sum_cons, List.length_cons, List.length_map]
    have hsum : ((rows.map (fun r => (rowLine r).toOption.getD "")).map
        (fun s => s.data.count '\n')).sum = 0 := by
      apply List.sum_eq_zero
      intro x hx
      obtain ⟨l, hl, rfl⟩ := List.mem_map.mp hx
      exact hbody l hl
    rw [hsum]
    have h1 : headerLine.data.count '\n' = 0 := by decide
    have h2 : sepLine.data.count '\n' = 0 := by decide
    have h3 : ("\n" : String).data.count '\n' = 1 := by decide
    rw [h1, h2, h3]
    omega

/-- C2 witness: the claim instantiated at a concrete two-record input. -/
theorem claim_C2_witness :
    (∀ r ∈ sampleRows, wellFormedRow r = true) ∧
    (∃ body : List String,
      sampleRows.mapM rowLine = .ok body ∧
      body.length = sampleRows.length ∧
      (∀ i (hi : i < sampleRows.length) (hb : i < body.length),
        Except.ok (body.get ⟨i, hb⟩) = rowLine (sampleRows.get ⟨i, hi⟩)) ∧
      (∀ l ∈ body, l.data.count '\n' = 0) ∧
      to_markdown (.listDoc sampleRows) =
        .ok (pyJoin "\n" (headerLine :: sepLine :: body) ++ "\n") ∧
      (pyJoin "\n" (headerLine :: sepLine :: body) ++ "\n").data.count '\n' =
        sampleRows.length + 2 ∧
      ∃ t, pyJoin "\n" (headerLine :: sepLine :: body) ++ "\n" = t ++ "\n") :=
  ⟨by decide, claim_C2 sampleRows (by decide)⟩

/-- One scan step either fails independently of the accumulated warnings
or succeeds, appending some warnings and updating the aggregate in a way
that does not depend on the warnings accumulated so far. -/
theorem collectStep_shape (rootDb : String) (e : ScaleDir) (d : AggData) :
    (∃ err, (∀ w0 : List String, collectStep rootDb (d, w0) e = .error err)) ∨
    (∃ d' wadd, (∀ w0 : List String, collectStep rootDb (d, w0) e = .ok (d', w0 ++ wadd))) := by
  obtain ⟨nm, dir, bench⟩ := e
  cases dir with
  | false => exact .inr ⟨d, [], fun w0 => by simp [collectStep]⟩
  | true =>
    cases bench with
    | missing => exact .inr ⟨d, [], fun w0 => by simp [collectStep]⟩
    | corrupt msg =>
      exact .inr ⟨d, [warnMsg rootDb nm msg], fun w0 => by simp [collectStep]⟩
    | loaded doc =>
      cases hre : reindex doc with
      | error err =>
        refine .inl ⟨err, fun w0 => ?_⟩
        simp [collectStep, hre]
      | ok m =>
        refine .inr ⟨dinsert nm m d, [], fun w0 => ?_⟩
        simp [collectStep, hre]

/-- The aggregate data built by the scan loop does not depend on the
warnings accumulated so far. -/
theorem collectFrom_fst (rootDb : String) :
    ∀ (l : List ScaleDir) (d : AggData) (w w' : List String),
      (collectFrom rootDb (d, w) l).map Prod.fst =
        (collectFrom rootDb (d, w') l).map Prod.fst := by
  intro l
  induction l with
  | nil => intro d w w'; rfl
  | cons e t ih =>
    intro d w w'
    simp only [collectFrom, List.foldlM_cons]
    rcases collectStep_shape rootDb e d with ⟨err, hall⟩ | ⟨d', wadd, hall⟩
    · rw [hall w, hall w']
    · rw [hall w, hall w', except_bind_ok, except_bind_ok]
      exact ih d' (w ++ wadd) (w' ++ wadd)

/-- C6: during directory scanning a subdirectory without bench.json is
passed over silently — identical aggregate, warnings and error behavior —
while a subdirectory whose bench.json fails to load appends exactly one
warning, is excluded from the aggregate, and scanning continues over the
remaining entries. -/
theorem claim_C6 (rootDb : String) (acc : AggData × List String)
    (pre post : List ScaleDir) (nm msg : String) :
    (collectFrom rootDb acc (pre ++ (⟨nm, true, .missing⟩ : ScaleDir) :: post) =
      collectFrom rootDb acc (pre ++ post)) ∧
    (collectFrom rootDb acc (pre ++ (⟨nm, true, .corrupt msg⟩ : ScaleDir) :: post) =
      (collectFrom rootDb acc pre >>= fun a =>
        collectFrom rootDb (a.1, a.2 ++ [warnMsg rootDb nm msg]) post)) ∧
    ((collectFrom rootDb acc (pre ++ (⟨nm, true, .corrupt msg⟩ : ScaleDir) :: post)).map
        Prod.fst =
      (collectFrom rootDb acc (pre ++ post)).map Prod.fst) := by
  have hsplit : ∀ (e : ScaleDir),
      collectFrom rootDb acc (pre ++ e :: post) =
        (collectFrom rootDb acc pre >>= fun a =>
          collectStep rootDb a e >>= fun a' => collectFrom rootDb a' post) := by
    intro e
    simp only [collectFrom, List.foldlM_append, List.foldlM_cons]
  have happ : collectFrom rootDb acc (pre ++ post) =
      (collectFrom rootDb acc pre >>= fun a => collectFrom rootDb a post) := by
    simp only [collectFrom, List.foldlM_append]
  refine ⟨?_, ?_, ?_⟩
  · rw [hsplit, happ]
    cases hpre : collectFrom rootDb acc pre with
    | error e => rfl
    | ok a => rw [except_bind_ok, except_bind_ok, collectStep]; rfl
  · rw [hsplit]
    cases hpre : collectFrom rootDb acc pre with
    | error e => rfl
    | ok a => rw [except_bind_ok, except_bind_ok, collectStep]; rfl
  · rw [hsplit, happ]
    cases hpre : collectFrom rootDb acc pre with
    | error e => rfl
    | ok a =>
      rw [except_bind_ok, except_bind_ok, collectStep]
      show (collectFrom rootDb (a.1, a.2 ++ [warnMsg rootDb nm msg]) post).map Prod.fst = _
      exact collectFrom_fst rootDb post a.1 _ a.2

/-- A scan over entries none of which is a directory with a loadable
bench.json leaves the aggregate empty and only accumulates warnings. -/
theorem collectFrom_no_loaded (rootDb : String) :
    ∀ (l : List ScaleDir), (∀ e ∈ l, e.isDir = true → e.bench.isLoadedB = false) →
      ∀ (d : AggData) (w : List String), ∃ w',
        collectFrom rootDb (d, w) l = .ok (d, w ++ w') := by
  intro l
  induction l with
  | nil =>
    intro _ d w
    exact ⟨[], by rw [List.append_nil]; rfl⟩
  | cons e t ih =>
    intro h d w
    rw [collectFrom, List.foldlM_cons]
    by_cases hdir : e.isDir = false
    · rw [collectStep, if_pos hdir, except_bind_ok]
      exact ih (fun x hx => h x (by simp [hx])) d w
    · have hdir' : e.isDir = true := by
        cases hd : e.isDir
        · exact absurd hd hdir
        · rfl
      cases hbench : e.bench with
      | missing =>
        rw [collectStep, if_neg hdir, hbench, except_bind_ok]
        exact ih (fun x hx => h x (by simp [hx])) d w
      | corrupt msg =>
        rw [collectStep, if_neg hdir, hbench, except_bind_ok]
        obtain ⟨w'', hw⟩ := ih (fun x hx => h x (by simp [hx])) d (w ++ [warnMsg rootDb e.name msg])
        refine ⟨[warnMsg rootDb e.name msg] ++ w'', ?_⟩
        show collectFrom rootDb (d, w ++ [warnMsg rootDb e.name msg]) t = _
        rw [hw, List.append_assoc]
      | loaded doc =>
        have := h e (by simp) hdir'
        rw [hbench] at this
        exact absurd this (by simp [BenchFile.isLoadedB])

/-- C8: if no scale subdirectory yields a loadable results file, the
aggregator — whatever the matplotlib probe returns, since sys.exit(0) at
line 132 precedes all write and chart code — exits successfully with
code 0, writes no summary file, and its last diagnostic line is the
no-data warning. -/
theorem claim_C8 (resultsDir db : String) (mplErr : Option String) (entries : List ScaleDir)
    (h : ∀ e ∈ entries, e.isDir = true → e.bench.isLoadedB = false) :
    ∃ warns : List String,
      plot_results_main resultsDir db mplErr entries =
        .ok ⟨warns ++ [noDataWarning resultsDir db], none, .ok 0⟩ := by
  have hmem : ∀ e ∈ sortByName entries, e.isDir = true → e.bench.isLoadedB = false := by
    intro e he
    exact h e ((List.perm_insertionSort _ entries).mem_iff.mp he)
  obtain ⟨w', hw⟩ := collectFrom_no_loaded (resultsDir ++ "/" ++ db) (sortByName entries) hmem [] []
  refine ⟨w', ?_⟩
  rw [plot_results_main, collect, hw]
  rfl

/-- C8 witness: the claim at a directory holding one bench-less
subdirectory, one corrupt one, and a stray file, in both matplotlib
configurations. -/
theorem claim_C8_witness :
    (∀ e ∈ ([⟨"2", true, .missing⟩, ⟨"3", true, .corrupt "Expecting value"⟩,
        ⟨"readme", false, .missing⟩] : List ScaleDir),
      e.isDir = true → e.bench.isLoadedB = false) ∧
    (∃ warns : List String,
      plot_results_main "results" "mysql" none
          [⟨"2", true, .missing⟩, ⟨"3", true, .corrupt "Expecting value"⟩,
            ⟨"readme", false, .missing⟩] =
        .ok ⟨warns ++ [noDataWarning "results" "mysql"], none, .ok 0⟩) ∧
    (∃ warns : List String,
      plot_results_main "results" "mysql" (some "No module named matplotlib")
          [⟨"2", true, .missing⟩, ⟨"3", true, .corrupt "Expecting value"⟩,
            ⟨"readme", false, .missing⟩] =
        .ok ⟨warns ++ [noDataWarning "results" "mysql"], none, .ok 0⟩) :=
  ⟨by decide, claim_C8 "results" "mysql" none _ (by decide),
    claim_C8 "results" "mysql" (some "No module named matplotlib") _ (by decide)⟩

/-- Appending the spec display defaults behind a record leaves dict.get
lookups with those defaults unchanged. -/
theorem fget_append_default (fields : List (String × JValue)) (k : String) (dflt : JValue)
    (h : alookup k defaultFields = some dflt) :
    fget (fields ++ defaultFields) k dflt = fget fields k dflt := by
  rw [fget, fget, alookup_append]
  cases alookup k fields with
  | some v => rfl
  | none => rw [h]; rfl

/-- C3 (amended): missing-field defaulting holds where rendering happens —
appending the spec defaults for the six displayed fields never changes a
single-run table row or an aggregator summary row — but not in the
aggregator internals: reindexing fails on a record without a scenario
key, and chart-value extraction fails on a present non-empty row missing
the metric, substituting 0 only when the scenario row is absent. -/
theorem claim_C3 :
    (∀ fields : List (String × JValue),
      rowLine (.row (fields ++ defaultFields)) = rowLine (.row fields)) ∧
    (∀ (scale : String) (fields : List (String × JValue)),
      renderSummaryRow scale (fields ++ defaultFields) = renderSummaryRow scale fields) ∧
    (∀ (fields : List (String × JValue)) (post : List PyElem),
      alookup "scenario" fields = none →
      reindex (.listDoc (.row fields :: post)) = .error "KeyError: scenario") ∧
    (∀ (m : ScnMap) (scn : JValue) (metric : String) (f : String × JValue)
        (fs : List (String × JValue)),
      alookup scn m = some (f :: fs) → alookup metric (f :: fs) = none →
      chartCell m scn metric = .error ("KeyError: " ++ metric)) ∧
    (∀ (m : ScnMap) (scn : JValue) (metric : String),
      alookup scn m = none → chartCell m scn metric = .ok (.jint 0)) := by
  refine ⟨?_, ?_, ?_, ?_, ?_⟩
  · intro fields
    simp only [rowLine,
      fget_append_default fields "scenario" (.jstr "") rfl,
      fget_append_default fields "ops" (.jstr "") rfl,
      fget_append_default fields "throughput_ops" (.jint 0) rfl,
      fget_append_default fields "p50_ms" (.jint 0) rfl,
      fget_append_default fields "p95_ms" (.jint 0) rfl,
      fget_append_default fields "p99_ms" (.jint 0) rfl]
  · intro scale fields
    simp only [renderSummaryRow,
      fget_append_default fields "ops" (.jstr "") rfl,
      fget_append_default fields "throughput_ops" (.jint 0) rfl,
      fget_append_default fields "p50_ms" (.jint 0) rfl,
      fget_append_default fields "p95_ms" (.jint 0) rfl,
      fget_append_default fields "p99_ms" (.jint 0) rfl]
  · intro fields post h
    simp only [reindex, iterRows, except_bind_ok, List.foldlM_cons, h]
    rfl
  · intro m scn metric f fs h1 h2
    simp only [chartCell, h1, h2]
  · intro m scn metric h
    simp only [chartCell, h]

/-- C3 witness: the amended claim applied at concrete inputs — a record
with only an ops key renders identically with or without appended
defaults, fails reindexing, and a one-field row without p99_ms fails
chart extraction while an absent row contributes 0. -/
theorem claim_C3_witness :
    rowLine (.row ([("ops", JValue.jint 7)] ++ defaultFields)) =
      rowLine (.row [("ops", JValue.jint 7)]) ∧
    renderSummaryRow "2" ([("ops", JValue.jint 7)] ++ defaultFields) =
      renderSummaryRow "2" [("ops", JValue.jint 7)] ∧
    reindex (.listDoc (.row [("ops", JValue.jint 7)] :: [])) = .error "KeyError: scenario" ∧
    chartCell [(JValue.jstr "a", [("scenario", JValue.jstr "a")])] (JValue.jstr "a") "p99_ms" =
      .error ("KeyError: " ++ "p99_ms") ∧
    chartCell [] (JValue.jstr "a") "p99_ms" = .ok (.jint 0) :=
  ⟨claim_C3.1 _, claim_C3.2.1 _ _, claim_C3.2.2.1 _ _ rfl,
    claim_C3.2.2.2.1 _ _ _ _ _ rfl rfl, claim_C3.2.2.2.2 _ _ _ rfl⟩

theorem to_markdown_listDoc_error {elems : List PyElem} {x : PyElem} (hx : x ∈ elems)
    (hex : ∃ e, rowLine x = .error e) : ∃ e, to_markdown (.listDoc elems) = .error e := by
  obtain ⟨e', he'⟩ := mapM_error_of_exists rowLine elems ⟨x, hx, hex⟩
  refine ⟨e', ?_⟩
  simp only [to_markdown, iterRows, except_bind_ok, he']
  rfl

/-- Every input document that is not a sequence of mappings makes
to_markdown raise, except the two degenerate empty iterables (empty
mapping, empty string). -/
theorem to_markdown_error_of_invalid (doc : PyDoc) (h1 : isValidSeq doc = false)
    (h2 : doc ≠ .dictDoc []) (h3 : doc ≠ .scalarDoc (.jstr "")) :
    ∃ e, to_markdown doc = .error e := by
  match doc with
  | .scalarDoc .null => exact ⟨_, rfl⟩
  | .scalarDoc (.jbool b) => exact ⟨_, rfl⟩
  | .scalarDoc (.jint n) => exact ⟨_, rfl⟩
  | .scalarDoc (.jfloat x) => exact ⟨_, rfl⟩
  | .scalarDoc (.jstr s) =>
    obtain ⟨sd⟩ := s
    cases sd with
    | nil => exact absurd rfl h3
    | cons c cs =>
      have hmem : PyElem.nonRow (.jstr (String.mk [c])) ∈
          (String.mk (c :: cs)).data.map (fun c => PyElem.nonRow (.jstr (String.mk [c]))) := by
        show _ ∈ (c :: cs).map _
        rw [List.map_cons]
        exact List.mem_cons_self _ _
      obtain ⟨e', he'⟩ := mapM_error_of_exists rowLine _
        ⟨PyElem.nonRow (.jstr (String.mk [c])), hmem, _, rfl⟩
      refine ⟨e', ?_⟩
      simp only [to_markdown, iterRows, except_bind_ok, he']
      rfl
  | .dictDoc fields =>
    cases fields with
    | nil => exact absurd rfl h2
    | cons f fs =>
      have hmem : PyElem.nonRow (.jstr f.1) ∈
          (f :: fs).map (fun kv => PyElem.nonRow (.jstr kv.1)) := by
        rw [List.map_cons]
        exact List.mem_cons_self _ _
      obtain ⟨e', he'⟩ := mapM_error_of_exists rowLine _
        ⟨PyElem.nonRow (.jstr f.1), hmem, _, rfl⟩
      refine ⟨e', ?_⟩
      simp only [to_markdown, iterRows, except_bind_ok, he']
      rfl
  | .listDoc elems =>
    rw [isValidSeq] at h1
    obtain ⟨x, hx, hnx⟩ := List.all_eq_false.mp h1
    match x, hnx with
    | .nonRow v, _ => exact to_markdown_listDoc_error hx ⟨_, rfl⟩
    | .row fields, hnx => exact absurd rfl hnx

/-- C7 (amended): a load failure propagates unchanged; an input that is
not a sequence of key/value mappings fails with a propagated error and
the output file untouched, except for the two degenerate empty iterables
(empty mapping, empty string) which render a header-only table; and on
every to_markdown failure the output is left unchanged. -/
theorem claim_C7 (input : Except String PyDoc) (out0 : Option String) :
    (∀ e, input = .error e → format_main input out0 = (.error e, out0)) ∧
    (∀ doc, input = .ok doc → isValidSeq doc = false →
      doc ≠ .dictDoc [] → doc ≠ .scalarDoc (.jstr "") →
      ∃ e, format_main input out0 = (.error e, out0)) ∧
    (∀ doc e, input = .ok doc → to_markdown doc = .error e →
      format_main input out0 = (.error e, out0)) := by
  refine ⟨?_, ?_, ?_⟩
  · rintro e rfl
    rfl
  · rintro doc rfl h1 h2 h3
    obtain ⟨e, he⟩ := to_markdown_error_of_invalid doc h1 h2 h3
    exact ⟨e, by simp only [format_main, he]⟩
  · rintro doc e rfl he
    simp only [format_main, he]

/-- C7 witness: the amended claim at a null input document and a
pre-existing output file. -/
theorem claim_C7_witness :
    isValidSeq (.scalarDoc .null) = false ∧
    (∃ e, format_main (.ok (.scalarDoc .null)) (some "old") = (.error e, some "old")) :=
  ⟨rfl, (claim_C7 (.ok (.scalarDoc .null)) (some "old")).2.1 _ rfl rfl
    (by decide) (by decide)⟩

/-- When some scale name fails int(), the keyed sort fails with exactly
the ValueError of one of the keys. -/
theorem sortScales_error :
    ∀ {keys : List String}, ¬(∀ s ∈ keys, (pyInt s).isOkB = true) →
      ∃ e, sortScales keys = .error e ∧ ∃ s ∈ keys, pyInt s = .error e := by
  intro keys
  induction keys with
  | nil => intro h; exact absurd (by intro s hs; cases hs) h
  | cons k t ih =>
    intro h
    cases hpk : pyInt k with
    | error e =>
      refine ⟨e, ?_, k, by simp, hpk⟩
      simp only [sortScales, List.mapM_cons, hpk, except_bind_err]
    | ok n =>
      have ht : ¬(∀ s ∈ t, (pyInt s).isOkB = true) := by
        intro hall
        apply h
        intro s hs
        rcases List.mem_cons.mp hs with rfl | hst
        · rw [hpk]; rfl
        · exact hall s hst
      obtain ⟨e, hsort, s, hs, hpe⟩ := ih ht
      have hmt : t.mapM (fun s => pyInt s >>= fun n => pure ((n, s) : Int × String)) =
          .error e := by
        cases hm : t.mapM (fun s => pyInt s >>= fun n => pure ((n, s) : Int × String)) with
        | ok l =>
          rw [sortScales, hm, except_bind_ok] at hsort
          cases hsort
        | error e' =>
          rw [sortScales, hm, except_bind_err] at hsort
          cases hsort
          rfl
      refine ⟨e, ?_, s, by simp [hs], hpe⟩
      simp only [sortScales, List.mapM_cons, hpk, except_bind_ok, hmt]
      rfl

/-- With an all-string key set the scenario sort takes the string
branch. -/
theorem pySortKeys_allstr {keys : List JValue} (h : keys.all JValue.isStrB = true) :
    pySortKeys keys = .ok (((keys.filterMap
        (fun v => match v with | .jstr s => some s | _ => none)).insertionSort
      (fun a b => a ≤ b)).map JValue.jstr) := by
  rw [pySortKeys, if_pos h]

theorem filterMap_str_length :
    ∀ {keys : List JValue}, keys.all JValue.isStrB = true →
      (keys.filterMap (fun v => match v with | .jstr s => some s | _ => none)).length =
        keys.length := by
  intro keys
  induction keys with
  | nil => intro _; rfl
  | cons v t ih =>
    intro h
    have hv := List.all_eq_true.mp h v (by simp)
    have ht : t.all JValue.isStrB = true :=
      List.all_eq_true.mpr (fun x hx => List.all_eq_true.mp h x (by simp [hx]))
    match v, hv with
    | .jstr s, _ => simp [List.filterMap_cons, ih ht]

/-- C5 (amended): a loaded scale identifier that int() rejects is fatal
with a propagated ValueError from a numeric sort of the scale names
whenever at least one scenario was observed (the report sort at line 54)
or matplotlib is available (the unconditional chart sort at line 79);
only in the no-matplotlib configuration with zero observed scenarios is
no sort ever reached, the run then exiting 0 with an empty summary and
the import warning.  A scale subdirectory lacking a results file never
changes the outcome of the scan at all. -/
theorem claim_C5 :
    (∀ data : AggData,
      (unionKeys data).all JValue.isStrB = true →
      unionKeys data ≠ [] →
      ¬(∀ s ∈ data.map Prod.fst, (pyInt s).isOkB = true) →
      ∃ e, write_markdown_lines data = .error e ∧
        ∃ s ∈ data.map Prod.fst, pyInt s = .error e) ∧
    (∀ data : AggData,
      (unionKeys data).all JValue.isStrB = true →
      ¬(∀ s ∈ data.map Prod.fst, (pyInt s).isOkB = true) →
      ∃ e, plot_run data none = .error e ∧
        ∃ s ∈ data.map Prod.fst, pyInt s = .error e) ∧
    (∀ (resultsDir db msg : String) (entries : List ScaleDir) (data : AggData)
        (warns : List String),
      collect (resultsDir ++ "/" ++ db) entries = .ok (data, warns) →
      data ≠ [] → unionKeys data = [] →
      plot_results_main resultsDir db (some msg) entries =
        .ok ⟨warns ++ [mplImportWarning msg], some "", .ok 0⟩) ∧
    (∀ (rootDb : String) (acc : AggData × List String) (pre post : List ScaleDir)
        (nm : String),
      collectFrom rootDb acc (pre ++ (⟨nm, true, BenchFile.missing⟩ : ScaleDir) :: post) =
        collectFrom rootDb acc (pre ++ post)) := by
  refine ⟨?_, ?_, ?_, ?_⟩
  · intro data hstr hne hbad
    obtain ⟨e, hsort, s, hs, hpe⟩ := sortScales_error hbad
    have hsec : ∀ scn : JValue, sectionLines data scn = .error e := fun scn => by
      simp only [sectionLines, hsort, except_bind_err]
    have hkeys := pySortKeys_allstr hstr
    have hlen : ((((unionKeys data).filterMap
        (fun v => match v with | .jstr s => some s | _ => none)).insertionSort
          (fun a b => a ≤ b)).map JValue.jstr).length = (unionKeys data).length := by
      rw [List.length_map, (List.perm_insertionSort _ _).length_eq, filterMap_str_length hstr]
    have hnil : (((unionKeys data).filterMap
        (fun v => match v with | .jstr s => some s | _ => none)).insertionSort
          (fun a b => a ≤ b)).map JValue.jstr ≠ [] := by
      intro hempty
      apply hne
      have := hlen
      rw [hempty] at this
      exact List.length_eq_zero.mp this.symm
    obtain ⟨x, hx⟩ := List.exists_mem_of_ne_nil _ hnil
    have hmapM := mapM_mem_error (sectionLines data) _ hx (hsec x)
      (fun y hy e' he' => by rw [hsec y] at he'; cases he'; rfl)
    refine ⟨e, ?_, s, hs, hpe⟩
    simp only [write_markdown_lines, hkeys, except_bind_ok, hmapM, except_bind_err]
  · intro data hstr hbad
    obtain ⟨e, hsort, s, hs, hpe⟩ := sortScales_error hbad
    refine ⟨e, ?_, s, hs, hpe⟩
    simp only [plot_run, pySortKeys_allstr hstr, except_bind_ok, hsort, except_bind_err]
  · intro resultsDir db msg entries data warns hc hne huk
    cases data with
    | nil => exact absurd rfl hne
    | cons d ds =>
      have hwl : write_markdown_lines (d :: ds) = .ok [] := by
        rw [write_markdown_lines, huk]
        rfl
      have hwt : write_markdown_text (d :: ds) = .ok "" := by
        rw [write_markdown_text, hwl]
        rfl
      rw [plot_results_main, hc, except_bind_ok, afterCollect]
      simp only [List.isEmpty_cons, hwt]
      rfl
  · intro rootDb acc pre post nm
    have hsplit : collectFrom rootDb acc
        (pre ++ (⟨nm, true, BenchFile.missing⟩ : ScaleDir) :: post) =
        (collectFrom rootDb acc pre >>= fun a =>
          collectStep rootDb a ⟨nm, true, BenchFile.missing⟩ >>= fun a' =>
            collectFrom rootDb a' post) := by
      simp only [collectFrom, List.foldlM_append, List.foldlM_cons]
    have happ : collectFrom rootDb acc (pre ++ post) =
        (collectFrom rootDb acc pre >>= fun a => collectFrom rootDb a post) := by
      simp only [collectFrom, List.foldlM_append]
    rw [hsplit, happ]
    cases hpre : collectFrom rootDb acc pre with
    | error e => rfl
    | ok a => rfl

/-- C5 witness: the amended claim at an aggregate holding the
non-numeric scale name abc with one scenario (write-stage and chart-stage
sort failures) and at the zero-scenario listing of that scale without
matplotlib (clean exit). -/
theorem claim_C5_witness :
    (unionKeys c5data).all JValue.isStrB = true ∧
    unionKeys c5data ≠ [] ∧
    ¬(∀ s ∈ c5data.map Prod.fst, (pyInt s).isOkB = true) ∧
    (∃ e, write_markdown_lines c5data = .error e ∧
      ∃ s ∈ c5data.map Prod.fst, pyInt s = .error e) ∧
    (∃ e, plot_run c5data none = .error e ∧
      ∃ s ∈ c5data.map Prod.fst, pyInt s = .error e) ∧
    collect ("results" ++ "/" ++ "mysql") c5entries = .ok ([("abc", [])], []) ∧
    ([("abc", [])] : AggData) ≠ [] ∧
    unionKeys ([("abc", [])] : AggData) = [] ∧
    plot_results_main "results" "mysql" (some "boom") c5entries =
      .ok ⟨[] ++ [mplImportWarning "boom"], some "", .ok 0⟩ :=
  ⟨by decide, by decide, by decide,
    claim_C5.1 c5data (by decide) (by decide) (by decide),
    claim_C5.2.1 c5data (by decide) (by decide),
    rfl, by decide, rfl,
    claim_C5.2.2.1 "results" "mysql" "boom" c5entries [("abc", [])] [] rfl
      (by decide) rfl⟩

theorem perm_flatMap {α β : Type} (f : α → List β) {l₁ l₂ : List α} (p : l₁.Perm l₂) :
    (l₁.flatMap f).Perm (l₂.flatMap f) := by
  rw [List.flatMap_def, List.flatMap_def]
  exact (p.map f).flatten

theorem mapM_congr {α β : Type} (f g : α → Except String β) :
    ∀ l : List α, (∀ x ∈ l, f x = g x) → l.mapM f = l.mapM g := by
  intro l
  induction l with
  | nil => intro _; rfl
  | cons a t ih =>
    intro h
    rw [List.mapM_cons, List.mapM_cons, h a (by simp), ih (fun x hx => h x (by simp [hx]))]

theorem all_perm {α : Type} (q : α → Bool) {k1 k2 : List α} (p : k1.Perm k2) :
    k1.all q = k2.all q := by
  cases h : k2.all q with
  | true => exact List.all_eq_true.mpr fun x hx => List.all_eq_true.mp h x (p.mem_iff.mp hx)
  | false =>
    obtain ⟨x, hx, hnx⟩ := List.all_eq_false.mp h
    exact List.all_eq_false.mpr ⟨x, p.mem_iff.mpr hx, hnx⟩

theorem perm_eq_of_length_le_one {α : Type} {k1 k2 : List α} (p : k1.Perm k2)
    (h : k1.length ≤ 1) : k1 = k2 := by
  match k1, h with
  | [], _ => exact p.nil_eq
  | [a], _ =>
    cases k2 with
    | nil => exact absurd p.symm.nil_eq (by simp)
    | cons b t =>
      have hlen : (b :: t).length = 1 := by rw [← p.length_eq]; rfl
      have ht : t = [] := by
        rw [List.length_cons] at hlen
        exact List.length_eq_zero.mp (by omega)
      subst ht
      have : b ∈ [a] := p.mem_iff.mpr (by simp)
      simp at this
      rw [this]

theorem pyInt_ok_of_isOkB {s : String} (h : (pyInt s).isOkB = true) :
    pyInt s = .ok ((pyInt s).toOption.getD 0) := by
  cases hp : pyInt s with
  | ok n => rfl
  | error e =>
    rw [hp] at h
    exact absurd h (by simp [Except.isOkB])

theorem sortScales_ok {keys : List String} (hok : ∀ s ∈ keys, (pyInt s).isOkB = true) :
    sortScales keys = .ok (((keys.map
        (fun s => (((pyInt s).toOption.getD 0 : Int), s))).insertionSort
      (fun a b => a.1 ≤ b.1)).map Prod.snd) := by
  have hall : ∀ s ∈ keys, (pyInt s >>= fun n => pure ((n, s) : Int × String)) =
      .ok (((pyInt s).toOption.getD 0 : Int), s) := by
    intro s hs
    rw [pyInt_ok_of_isOkB (hok s hs)]
    rfl
  rw [sortScales, mapM_ok_of_forall _ _ keys hall, except_bind_ok]

theorem pySortKeys_perm {k1 k2 : List JValue} (p : k1.Perm k2) :
    pySortKeys k1 = pySortKeys k2 := by
  by_cases hstr : k1.all JValue.isStrB = true
  · have hstr2 : k2.all JValue.isStrB = true := (all_perm _ p) ▸ hstr
    rw [pySortKeys_allstr hstr, pySortKeys_allstr hstr2]
    have hp : ((k1.filterMap (fun v => match v with | .jstr s => some s | _ => none)).insertionSort
        (fun a b => a ≤ b)).Perm
        ((k2.filterMap (fun v => match v with | .jstr s => some s | _ => none)).insertionSort
          (fun a b => a ≤ b)) :=
      ((List.perm_insertionSort _ _).trans (p.filterMap _)).trans
        (List.perm_insertionSort _ _).symm
    have heq := perm_pairwise_eq hp
      (List.sorted_insertionSort (fun a b : String => a ≤ b) _)
      (List.sorted_insertionSort (fun a b : String => a ≤ b) _)
      (fun a _ b _ hab hba => le_antisymm hab hba)
    rw [heq]
  · have hstr2 : ¬ k2.all JValue.isStrB = true := (all_perm _ p) ▸ hstr
    by_cases hint : k1.all JValue.isIntB = true
    · have hint2 : k2.all JValue.isIntB = true := (all_perm _ p) ▸ hint
      rw [pySortKeys, if_neg hstr, if_pos hint, pySortKeys, if_neg hstr2, if_pos hint2]
      have hp : ((k1.filterMap (fun v => match v with | .jint n => some n | _ => none)).insertionSort
          (fun a b => a ≤ b)).Perm
          ((k2.filterMap (fun v => match v with | .jint n => some n | _ => none)).insertionSort
            (fun a b => a ≤ b)) :=
        ((List.perm_insertionSort _ _).trans (p.filterMap _)).trans
          (List.perm_insertionSort _ _).symm
      have heq := perm_pairwise_eq hp
        (List.sorted_insertionSort (fun a b : Int => a ≤ b) _)
        (List.sorted_insertionSort (fun a b : Int => a ≤ b) _)
        (fun a _ b _ hab hba => le_antisymm hab hba)
      rw [heq]
    · have hint2 : ¬ k2.all JValue.isIntB = true := (all_perm _ p) ▸ hint
      by_cases hlen : k1.length ≤ 1
      · rw [perm_eq_of_length_le_one p hlen]
      · have hlen2 : ¬ k2.length ≤ 1 := by rw [← p.length_eq]; exact hlen
        rw [pySortKeys, if_neg hstr, if_neg hint, if_neg hlen,
          pySortKeys, if_neg hstr2, if_neg hint2, if_neg hlen2]

/-- C9 (amended): aggregation is commutative in scale-load order provided
no two scale identifiers share one integer value — for aggregates with
the same (scale, records) entries in different orders, distinct scale
names, every name accepted by int() and int() injective on the names, the
generated report text is identical.  Without the distinct-integer proviso
the claim fails on the stable sort; see the counterexample. -/
theorem claim_C9 (data1 data2 : AggData)
    (hperm : data1.Perm data2)
    (hnd : (data1.map Prod.fst).Nodup)
    (hok : ∀ s ∈ data1.map Prod.fst, (pyInt s).isOkB = true)
    (hinj : ∀ s ∈ data1.map Prod.fst, ∀ t ∈ data1.map Prod.fst,
      (pyInt s).toOption = (pyInt t).toOption → s = t) :
    write_markdown_text data1 = write_markdown_text data2 := by
  have hpk : (data1.map Prod.fst).Perm (data2.map Prod.fst) := hperm.map Prod.fst
  have hok2 : ∀ s ∈ data2.map Prod.fst, (pyInt s).isOkB = true :=
    fun s hs => hok s (hpk.mem_iff.mpr hs)
  have hkperm : ((data1.map Prod.fst).map
      (fun s => (((pyInt s).toOption.getD 0 : Int), s))).Perm
      ((data2.map Prod.fst).map (fun s => (((pyInt s).toOption.getD 0 : Int), s))) :=
    hpk.map _
  have hsortperm : (((data1.map Prod.fst).map
      (fun s => (((pyInt s).toOption.getD 0 : Int), s))).insertionSort
        (fun a b => a.1 ≤ b.1)).Perm
      (((data2.map Prod.fst).map
        (fun s => (((pyInt s).toOption.getD 0 : Int), s))).insertionSort
          (fun a b => a.1 ≤ b.1)) :=
    ((List.perm_insertionSort _ _).trans hkperm).trans (List.perm_insertionSort _ _).symm
  have hanti : ∀ a ∈ ((data1.map Prod.fst).map
        (fun s => (((pyInt s).toOption.getD 0 : Int), s))).insertionSort
          (fun a b => a.1 ≤ b.1),
      ∀ b ∈ ((data1.map Prod.fst).map
        (fun s => (((pyInt s).toOption.getD 0 : Int), s))).insertionSort
          (fun a b => a.1 ≤ b.1),
      a.1 ≤ b.1 → b.1 ≤ a.1 → a = b := by
    intro a ha b hb h1 h2
    have ha' := (List.perm_insertionSort _ _).mem_iff.mp ha
    have hb' := (List.perm_insertionSort _ _).mem_iff.mp hb
    obtain ⟨s, hs, rfl⟩ := List.mem_map.mp ha'
    obtain ⟨t, ht, rfl⟩ := List.mem_map.mp hb'
    have hv : ((pyInt s).toOption.getD 0 : Int) = ((pyInt t).toOption.getD 0 : Int) :=
      le_antisymm h1 h2
    have hpi : pyInt s = pyInt t := by
      rw [pyInt_ok_of_isOkB (hok s hs), pyInt_ok_of_isOkB (hok t ht), hv]
    rw [hinj s hs t ht (congrArg Except.toOption hpi)]
  have hscales_eq := perm_pairwise_eq hsortperm
    (List.sorted_insertionSort (fun a b : Int × String => a.1 ≤ b.1) _)
    (List.sorted_insertionSort (fun a b : Int × String => a.1 ≤ b.1) _)
    hanti
  have hscales : sortScales (data1.map Prod.fst) = sortScales (data2.map Prod.fst) := by
    rw [sortScales_ok hok, sortScales_ok hok2, hscales_eq]
  have hrow : ∀ (scn : JValue) (scale : String),
      summaryRow data1 scn scale = summaryRow data2 scn scale := by
    intro scn scale
    rw [summaryRow, summaryRow, alookup_perm hperm hnd scale]
  have hsec : ∀ scn : JValue, sectionLines data1 scn = sectionLines data2 scn := by
    intro scn
    rw [sectionLines, sectionLines, hscales]
    cases hv : sortScales (data2.map Prod.fst) with
    | error e => rfl
    | ok scales =>
      rw [except_bind_ok, except_bind_ok, mapM_congr _ _ scales (fun x _ => hrow scn x)]
  have huk : (unionKeys data1).Perm (unionKeys data2) :=
    (perm_flatMap _ (hperm.map Prod.snd)).dedup
  rw [write_markdown_text, write_markdown_text, write_markdown_lines, write_markdown_lines,
    pySortKeys_perm huk]
  cases hk : pySortKeys (unionKeys data2) with
  | error e => rfl
  | ok scens =>
    rw [except_bind_ok, except_bind_ok, mapM_congr _ _ scens (fun x _ => hsec x)]

/-- C9 witness: the amended claim at the two loading orders of scales 100
and 200. -/
theorem claim_C9_witness :
    c9d1.Perm c9d2 ∧
    (c9d1.map Prod.fst).Nodup ∧
    (∀ s ∈ c9d1.map Prod.fst, (pyInt s).isOkB = true) ∧
    (∀ s ∈ c9d1.map Prod.fst, ∀ t ∈ c9d1.map Prod.fst,
      (pyInt s).toOption = (pyInt t).toOption → s = t) ∧
    write_markdown_text c9d1 = write_markdown_text c9d2 :=
  ⟨by decide, by decide, by decide, by decide,
    claim_C9 c9d1 c9d2 (by decide) (by decide) (by decide) (by decide)⟩

/-- A summary row whose record has only renderable metric values
succeeds. -/
theorem renderSummaryRow_ok {scale : String} {fields : List (String × JValue)}
    (h1 : numericOkB (alookup "throughput_ops" fields) = true)
    (h2 : numericOkB (alookup "p50_ms" fields) = true)
    (h3 : numericOkB (alookup "p95_ms" fields) = true)
    (h4 : numericOkB (alookup "p99_ms" fields) = true) :
    ∃ s, renderSummaryRow scale fields = .ok s := by
  obtain ⟨x1, hx1⟩ := fmtFixed_numericOkB 2 h1
  obtain ⟨x2, hx2⟩ := fmtFixed_numericOkB 3 h2
  obtain ⟨x3, hx3⟩ := fmtFixed_numericOkB 3 h3
  obtain ⟨x4, hx4⟩ := fmtFixed_numericOkB 3 h4
  have e1 : (fget fields "throughput_ops" (.jint 0)).fmtFixed 2 = .ok (formatFixed 2 x1) := hx1
  have e2 : (fget fields "p50_ms" (.jint 0)).fmtFixed 3 = .ok (formatFixed 3 x2) := hx2
  have e3 : (fget fields "p95_ms" (.jint 0)).fmtFixed 3 = .ok (formatFixed 3 x3) := hx3
  have e4 : (fget fields "p99_ms" (.jint 0)).fmtFixed 3 = .ok (formatFixed 3 x4) := hx4
  refine ⟨"| " ++ scale ++ " | " ++ pyStr (fget fields "ops" (.jstr "")) ++ " | "
    ++ formatFixed 2 x1 ++ " | " ++ formatFixed 3 x2 ++ " | " ++ formatFixed 3 x3
    ++ " | " ++ formatFixed 3 x4 ++ " |", ?_⟩
  rw [renderSummaryRow, e1, except_bind_ok, e2, except_bind_ok, e3, except_bind_ok,
    e4, except_bind_ok]

/-- The summary row of a scale whose record set lacks the scenario is the
zero/empty row the spec prescribes. -/
theorem renderSummaryRow_empty (scale : String) :
    renderSummaryRow scale [] = .ok (missingRowSpec scale) := by
  show Except.ok ("| " ++ scale ++ " | " ++ pyStr (fget [] "ops" (.jstr "")) ++ " | "
    ++ formatFixed 2 ⟨0, 0⟩ ++ " | " ++ formatFixed 3 ⟨0, 0⟩ ++ " | " ++ formatFixed 3 ⟨0, 0⟩
    ++ " | " ++ formatFixed 3 ⟨0, 0⟩ ++ " |") = _
  apply congrArg
  apply String.ext
  rw [missingRowSpec]
  simp only [String.data_append, List.append_assoc]
  congr 1

/-- C1: for every aggregate from at least one loaded scale — scale names
all accepted by int(), scenario keys strings, metric values renderable —
the report is one section per scenario, sections following the
lexicographically sorted union of the scenario names over all scales,
each section carrying exactly one row per known scale in ascending order
of the integer scale values, and a scale lacking the scenario getting the
zero/empty row rather than no row. -/
theorem claim_C1 (data : AggData)
    (hne : data ≠ [])
    (hnd : (data.map Prod.fst).Nodup)
    (hok : ∀ s ∈ data.map Prod.fst, (pyInt s).isOkB = true)
    (hstr : (unionKeys data).all JValue.isStrB = true)
    (hnum : ∀ p ∈ data, ∀ q ∈ p.2, ∀ k ∈ ["throughput_ops", "p50_ms", "p95_ms", "p99_ms"],
      numericOkB (alookup k q.2) = true) :
    ∃ (scens : List String) (scales : List String) (rowFor : String → String → String),
      write_markdown_lines data =
        .ok (scens.flatMap (fun scn =>
          ("## " ++ scn) :: summaryHeader :: summarySep :: (scales.map (rowFor scn)) ++ [""])) ∧
      List.Sorted (fun a b : String => a ≤ b) scens ∧
      scens.Nodup ∧
      (∀ s : String, s ∈ scens ↔ JValue.jstr s ∈ unionKeys data) ∧
      scales.Perm (data.map Prod.fst) ∧
      List.Pairwise (fun a b : String =>
        ((pyInt a).toOption.getD 0 : Int) ≤ ((pyInt b).toOption.getD 0 : Int)) scales ∧
      (∀ (scn : String) (scale : String) (m : ScnMap), alookup scale data = some m →
        alookup (JValue.jstr scn) m = none → rowFor scn scale = missingRowSpec scale) := by
  refine ⟨((unionKeys data).filterMap
      (fun v => match v with | .jstr s => some s | _ => none)).insertionSort
        (fun a b : String => a ≤ b),
    (((data.map Prod.fst).map
      (fun s => (((pyInt s).toOption.getD 0 : Int), s))).insertionSort
        (fun a b => a.1 ≤ b.1)).map Prod.snd,
    fun scn scale => (summaryRow data (JValue.jstr scn) scale).toOption.getD "",
    ?_, ?_, ?_, ?_, ?_, ?_, ?_⟩
  case refine_2 => exact List.sorted_insertionSort (fun a b : String => a ≤ b) _
  case refine_3 =>
    refine (List.perm_insertionSort _ _).nodup_iff.mpr ?_
    refine List.Nodup.filterMap ?_ (List.nodup_dedup _)
    intro a a' b hb hb'
    match a, hb with
    | .jstr s, hb =>
      match a', hb' with
      | .jstr t, hb' =>
        simp only [Option.mem_def, Option.some_inj] at hb hb'
        rw [hb, hb']
  case refine_4 =>
    intro s
    rw [(List.perm_insertionSort _ _).mem_iff, List.mem_filterMap]
    constructor
    · rintro ⟨v, hv, hfv⟩
      match v, hfv with
      | .jstr t, hfv =>
        simp only [Option.some_inj] at hfv
        rw [← hfv]
        exact hv
    · intro hv
      exact ⟨JValue.jstr s, hv, rfl⟩
  case refine_5 =>
    refine ((List.perm_insertionSort _ _).map Prod.snd).trans ?_
    rw [List.map_map,
      show (Prod.snd ∘ fun s : String => (((pyInt s).toOption.getD 0 : Int), s)) = id from rfl,
      List.map_id]

  case refine_6 =>
    rw [List.pairwise_map]
    refine List.Pairwise.imp_of_mem ?_
      (List.sorted_insertionSort (fun a b : Int × String => a.1 ≤ b.1) _)
    intro a b ha hb hab
    have ha' := (List.perm_insertionSort _ _).mem_iff.mp ha
    have hb' := (List.perm_insertionSort _ _).mem_iff.mp hb
    obtain ⟨s, _, rfl⟩ := List.mem_map.mp ha'
    obtain ⟨t, _, rfl⟩ := List.mem_map.mp hb'
    exact hab
  case refine_7 =>
    intro scn scale m hl hm
    have hs : summaryRow data (JValue.jstr scn) scale = .ok (missingRowSpec scale) := by
      rw [summaryRow, hl]
      show renderSummaryRow scale ((alookup (JValue.jstr scn) m).getD []) = _
      rw [hm]
      exact renderSummaryRow_empty scale
    show (summaryRow data (JValue.jstr scn) scale).toOption.getD "" = missingRowSpec scale
    rw [hs]
    rfl
  case refine_1 =>
    have hrowok : ∀ (scn : String) (scale : String), scale ∈ data.map Prod.fst →
        summaryRow data (JValue.jstr scn) scale =
          .ok ((summaryRow data (JValue.jstr scn) scale).toOption.getD "") := by
      intro scn scale hmem
      cases hl : alookup scale data with
      | none => exact absurd hmem ((alookup_eq_none_iff scale data).mp hl)
      | some m =>
        have hex : ∃ s, summaryRow data (JValue.jstr scn) scale = .ok s := by
          rw [summaryRow, hl]
          show ∃ s, renderSummaryRow scale ((alookup (JValue.jstr scn) m).getD []) = .ok s
          cases hsv : alookup (JValue.jstr scn) m with
          | none => exact ⟨_, renderSummaryRow_empty scale⟩
          | some fields =>
            have hmm : (scale, m) ∈ data := alookup_mem hl
            have hfm : (JValue.jstr scn, fields) ∈ m := alookup_mem hsv
            exact renderSummaryRow_ok
              (hnum _ hmm _ hfm "throughput_ops" (by simp))
              (hnum _ hmm _ hfm "p50_ms" (by simp))
              (hnum _ hmm _ hfm "p95_ms" (by simp))
              (hnum _ hmm _ hfm "p99_ms" (by simp))
        obtain ⟨s, hs⟩ := hex
        rw [hs]
        rfl
    have hscalemem : ∀ scale ∈ (((data.map Prod.fst).map
        (fun s => (((pyInt s).toOption.getD 0 : Int), s))).insertionSort
          (fun a b => a.1 ≤ b.1)).map Prod.snd, scale ∈ data.map Prod.fst := by
      intro scale hsc
      obtain ⟨a, ha, rfl⟩ := List.mem_map.mp hsc
      have ha' := (List.perm_insertionSort _ _).mem_iff.mp ha
      obtain ⟨s, hs, rfl⟩ := List.mem_map.mp ha'
      exact hs
    have hsection : ∀ scn : String, sectionLines data (JValue.jstr scn) =
        .ok (("## " ++ scn) :: summaryHeader :: summarySep ::
          ((((data.map Prod.fst).map
            (fun s => (((pyInt s).toOption.getD 0 : Int), s))).insertionSort
              (fun a b => a.1 ≤ b.1)).map Prod.snd).map
            (fun scale => (summaryRow data (JValue.jstr scn) scale).toOption.getD "") ++ [""]) := by
      intro scn
      rw [sectionLines, sortScales_ok hok, except_bind_ok,
        mapM_ok_of_forall _ _ _ (fun scale hsc => hrowok scn scale (hscalemem scale hsc)),
        except_bind_ok]
      rfl
    rw [write_markdown_lines, pySortKeys_allstr hstr, except_bind_ok]
    rw [mapM_ok_of_forall (sectionLines data)
      (fun v => ("## " ++ pyStr v) :: summaryHeader :: summarySep ::
        ((((data.map Prod.fst).map
          (fun s => (((pyInt s).toOption.getD 0 : Int), s))).insertionSort
            (fun a b => a.1 ≤ b.1)).map Prod.snd).map
          (fun scale => (summaryRow data v scale).toOption.getD "") ++ [""])
      _ ?_, except_bind_ok]
    · rw [List.map_map, ← List.flatMap_def]
      rfl
    · intro x hx
      obtain ⟨scn, _, rfl⟩ := List.mem_map.mp hx
      exact hsection scn

/-- C1 witness: the claim at a two-scale aggregate whose scenario sets
differ, so each section must still carry one row per scale. -/
theorem claim_C1_witness :
    c1data ≠ [] ∧
    (c1data.map Prod.fst).Nodup ∧
    (∀ s ∈ c1data.map Prod.fst, (pyInt s).isOkB = true) ∧
    (unionKeys c1data).all JValue.isStrB = true ∧
    (∀ p ∈ c1data, ∀ q ∈ p.2, ∀ k ∈ ["throughput_ops", "p50_ms", "p95_ms", "p99_ms"],
      numericOkB (alookup k q.2) = true) ∧
    (∃ (scens : List String) (scales : List String) (rowFor : String → String → String),
      write_markdown_lines c1data =
        .ok (scens.flatMap (fun scn =>
          ("## " ++ scn) :: summaryHeader :: summarySep :: (scales.map (rowFor scn)) ++ [""])) ∧
      List.Sorted (fun a b : String => a ≤ b) scens ∧
      scens.Nodup ∧
      (∀ s : String, s ∈ scens ↔ JValue.jstr s ∈ unionKeys c1data) ∧
      scales.Perm (c1data.map Prod.fst) ∧
      List.Pairwise (fun a b : String =>
        ((pyInt a).toOption.getD 0 : Int) ≤ ((pyInt b).toOption.getD 0 : Int)) scales ∧
      (∀ (scn : String) (scale : String) (m : ScnMap), alookup scale c1data = some m →
        alookup (JValue.jstr scn) m = none → rowFor scn scale = missingRowSpec scale)) :=
  ⟨by decide, by decide, by decide, by decide, by decide,
    claim_C1 c1data (by decide) (by decide) (by decide) (by decide) (by decide)⟩
